import Mathlib

/-!
Verification development for the bun-m2m demo repository (src/main.go,
two program variants sharing the same data model and task structure).

The Go program declares three tables (orders, items, order_to_items),
creates the schema, then concurrently runs one writer goroutine that
performs a fixed sequence of five inserts and two reader goroutines that
each run ten iterations of a select routine.  We embed the database rows,
the deterministic insert/select semantics, the sequential-abort loops of
`createSchema` / `InsertQuery`, the `PostQuery` flattening step of the
second variant, and the goroutine structure of `main`.
-/

/-- A row of the `orders` table: `Order{ID, ItemID}` in the source. -/
structure OrderRow where
  id : Int
  itemID : Int
deriving DecidableEq, Repr

/-- A row of the `items` table: `Item{ID, OrderID}` in the source. -/
structure ItemRow where
  id : Int
  orderID : Int
deriving DecidableEq, Repr

/-- A row of the junction table `order_to_items`:
`OrderToItem{OrderID, ItemID}` with composite primary key. -/
structure OrderToItemRow where
  orderID : Int
  itemID : Int
deriving DecidableEq, Repr

/-- The in-memory SQLite database state: the rows of the three tables,
in insertion order. -/
structure DB where
  orders : List OrderRow
  items : List ItemRow
  orderToItems : List OrderToItemRow
deriving DecidableEq, Repr

/-- Errors surfaced by the database driver.  `noRows` models Go's
`sql.ErrNoRows`; `constraintViolation` models a primary-key conflict;
`other` models any further engine error. -/
inductive DBError where
  | noRows
  | constraintViolation
  | other (code : Nat)
deriving DecidableEq, Repr

/-- The empty database right after `createSchema` (all tables exist, no rows). -/
def emptyDB : DB := ⟨[], [], []⟩

/-- Insert an `Order` row, failing on a primary-key conflict. -/
def DB.insertOrder (db : DB) (r : OrderRow) : Except DBError DB :=
  if db.orders.any (fun o => o.id == r.id) then
    .error .constraintViolation
  else
    .ok { db with orders := db.orders ++ [r] }

/-- Insert an `Item` row, failing on a primary-key conflict. -/
def DB.insertItem (db : DB) (r : ItemRow) : Except DBError DB :=
  if db.items.any (fun i => i.id == r.id) then
    .error .constraintViolation
  else
    .ok { db with items := db.items ++ [r] }

/-- Insert a junction row, failing when the composite key
`(order_id, item_id)` already exists. -/
def DB.insertOrderToItem (db : DB) (r : OrderToItemRow) : Except DBError DB :=
  if db.orderToItems.any (fun j => j.orderID == r.orderID && j.itemID == r.itemID) then
    .error .constraintViolation
  else
    .ok { db with orderToItems := db.orderToItems ++ [r] }

/-- One value of the `values` slice in `InsertQuery`: a pointer to an
`Item`, `Order` or `OrderToItem` struct. -/
inductive InsertValue where
  | item (r : ItemRow)
  | order (r : OrderRow)
  | orderToItem (r : OrderToItemRow)
deriving DecidableEq, Repr

/-- Dispatch of `db.NewInsert().Model(value).Exec(ctx)` on the dynamic
type of the value. -/
def insertExec : InsertValue → DB → Except DBError DB
  | .item r, db => db.insertItem r
  | .order r, db => db.insertOrder r
  | .orderToItem r, db => db.insertOrderToItem r

/-- The fixed `values` slice of `InsertQuery` (identical in both variants):
`Item{ID:1}`, `Item{ID:2}`, `Order{ID:1}`, `OrderToItem{1,1}`,
`OrderToItem{1,2}`; unmentioned Go struct fields are zero. -/
def insertValues : List InsertValue :=
  [ .item ⟨1, 0⟩
  , .item ⟨2, 0⟩
  , .order ⟨1, 0⟩
  , .orderToItem ⟨1, 1⟩
  , .orderToItem ⟨1, 2⟩ ]

/-- A `for`-loop that executes a fixed list of operations in order against
a state, stopping at the first failure.  It returns the list of operations
actually attempted together with the final outcome; this is the common
shape of `createSchema` and `InsertQuery` in the source. -/
def runSeqTrace {α σ ε : Type} (exec : α → σ → Except ε σ) :
    List α → σ → List α × Except ε σ
  | [], s => ([], Except.ok s)
  | a :: rest, s =>
    match exec a s with
    | Except.error e => ([a], Except.error e)
    | Except.ok s' =>
      let p := runSeqTrace exec rest s'
      (a :: p.1, p.2)

/-- `InsertQuery` with the outcome of each `Exec` call abstracted, so that
arbitrary driver failures can be considered. -/
def InsertQueryWith {σ ε : Type} (exec : InsertValue → σ → Except ε σ) (s : σ) :
    List InsertValue × Except ε σ :=
  runSeqTrace exec insertValues s

/-- `InsertQuery` against the deterministic in-memory database. -/
def InsertQuery (db : DB) : Except DBError DB :=
  (InsertQueryWith insertExec db).2

/-- The models whose tables `createSchema` creates, in order.  In the first
variant the third entry is `(*OrderToItemM2M)(nil)` and in the second it is
`(*OrderToItem)(nil)`; both map to the table `order_to_items`. -/
inductive SchemaModel where
  | order
  | item
  | orderToItemJunction
deriving DecidableEq, Repr

/-- The fixed `models` slice of `createSchema`. -/
def createSchemaModels : List SchemaModel :=
  [.order, .item, .orderToItemJunction]

/-- `createSchema` with the outcome of each `NewCreateTable().Exec` call
abstracted (table creation is delegated to the external engine). -/
def createSchema {σ ε : Type} (exec : SchemaModel → σ → Except ε σ) (s : σ) :
    List SchemaModel × Except ε σ :=
  runSeqTrace exec createSchemaModels s

/-- The database state reached after the first `n` operations of the
insert sequence have been applied to the fresh database. -/
def dbAfter (n : Nat) : DB :=
  match (runSeqTrace insertExec (insertValues.take n) emptyDB).2 with
  | .ok db => db
  | .error _ => emptyDB

/-- The database state after the whole insert sequence has completed. -/
def finalDB : DB :=
  ⟨[⟨1, 0⟩], [⟨1, 0⟩, ⟨2, 0⟩], [⟨1, 1⟩, ⟨1, 2⟩]⟩

/-!
The second variant's result structs.  `OrderM2M` carries the raw has-many
slice `ItemsM2M` of hydrated junction rows and the flattened slice `Items`;
`ItemM2M` is symmetric; `OrderToItemM2M` carries optional pointers to its
two endpoints.  The Go structs are mutually recursive through pointers, so
the embedding is a mutual inductive family with `Option` for pointers. -/

mutual

/-- The `OrderM2M` struct of the second variant: order columns, the
hydrated junction rows `ItemsM2M`, and the flattened `Items` slice. -/
inductive OrderM2M where
  | mk (id : Int) (itemID : Int)
      (itemsM2M : List OrderToItemM2M) (items : List ItemM2M)

/-- The `ItemM2M` struct of the second variant: item columns, the hydrated
junction rows `OrdersM2M`, and the flattened `Orders` slice. -/
inductive ItemM2M where
  | mk (id : Int) (orderID : Int)
      (ordersM2M : List OrderToItemM2M) (orders : List OrderM2M)

/-- The `OrderToItemM2M` struct of the second variant: the junction columns
plus belongs-to pointers to the related order and item (`nil` when the
relation was not hydrated). -/
inductive OrderToItemM2M where
  | mk (orderID : Int) (order : Option OrderM2M)
      (itemID : Int) (item : Option ItemM2M)

end

/-- Field `OrderM2M.ID`. -/
def OrderM2M.id : OrderM2M → Int
  | .mk i _ _ _ => i

/-- Field `OrderM2M.ItemID`. -/
def OrderM2M.itemID : OrderM2M → Int
  | .mk _ x _ _ => x

/-- Field `OrderM2M.ItemsM2M`. -/
def OrderM2M.itemsM2M : OrderM2M → List OrderToItemM2M
  | .mk _ _ l _ => l

/-- Field `OrderM2M.Items`. -/
def OrderM2M.items : OrderM2M → List ItemM2M
  | .mk _ _ _ l => l

/-- Field `ItemM2M.ID`. -/
def ItemM2M.id : ItemM2M → Int
  | .mk i _ _ _ => i

/-- Field `ItemM2M.OrderID`. -/
def ItemM2M.orderID : ItemM2M → Int
  | .mk _ x _ _ => x

/-- Field `ItemM2M.OrdersM2M`. -/
def ItemM2M.ordersM2M : ItemM2M → List OrderToItemM2M
  | .mk _ _ l _ => l

/-- Field `ItemM2M.Orders`. -/
def ItemM2M.orders : ItemM2M → List OrderM2M
  | .mk _ _ _ l => l

/-- Field `OrderToItemM2M.OrderID`. -/
def OrderToItemM2M.orderID : OrderToItemM2M → Int
  | .mk o _ _ _ => o

/-- Field `OrderToItemM2M.Order`. -/
def OrderToItemM2M.order : OrderToItemM2M → Option OrderM2M
  | .mk _ o _ _ => o

/-- Field `OrderToItemM2M.ItemID`. -/
def OrderToItemM2M.itemID : OrderToItemM2M → Int
  | .mk _ _ i _ => i

/-- Field `OrderToItemM2M.Item`. -/
def OrderToItemM2M.item : OrderToItemM2M → Option ItemM2M
  | .mk _ _ _ i => i

/-- The body of the `PostQuery` loops: append the pointed-to value when
the pointer `f a` is non-nil, otherwise keep the accumulator. -/
def appendIfSome {α β : Type} (f : α → Option β) (acc : List β) (a : α) : List β :=
  match f a with
  | some b => acc ++ [b]
  | none => acc

/-- `(*OrderM2M).PostQuery`: reset `Items` to an empty slice, then, when
`ItemsM2M` is non-empty, append the pointed-to `Item` of every junction
entry whose `Item` pointer is non-nil, in order. -/
def OrderM2M.PostQuery : OrderM2M → OrderM2M
  | .mk id itemID itemsM2M _ =>
    let items :=
      if itemsM2M.length > 0 then
        itemsM2M.foldl (appendIfSome OrderToItemM2M.item) []
      else []
    .mk id itemID itemsM2M items

/-- `(*ItemM2M).PostQuery`: reset `Orders` to an empty slice, then, when
`OrdersM2M` is non-empty, append the pointed-to `Order` of every junction
entry whose `Order` pointer is non-nil, in order. -/
def ItemM2M.PostQuery : ItemM2M → ItemM2M
  | .mk id orderID ordersM2M _ =>
    let orders :=
      if ordersM2M.length > 0 then
        ordersM2M.foldl (appendIfSome OrderToItemM2M.order) []
      else []
    .mk id orderID ordersM2M orders

/-- The zero value `new(OrderM2M)` allocates. -/
def zeroOrderM2M : OrderM2M := .mk 0 0 [] []

/-- The zero value `new(ItemM2M)` allocates. -/
def zeroItemM2M : ItemM2M := .mk 0 0 [] []

/-!
Select semantics.  `selectUsingHasMany` scans the junction table inner
joined with `orders` and `items` into a slice of junction-model structs;
`selectUsingM2M` scans a single order (respectively item), hydrates its
junction rows and their far endpoints, and flattens with `PostQuery`. -/

/-- The rows produced by the query of `selectUsingHasMany`:
`SELECT ... FROM order_to_items JOIN orders ON orders.id =
order_to_items.order_id JOIN items ON items.id = order_to_items.item_id`,
scanned into the junction model (one scanned row per matching join
combination). -/
def selectUsingHasManyRows (db : DB) : List OrderToItemRow :=
  db.orderToItems.flatMap fun j =>
    (db.orders.filter (fun o => o.id == j.orderID)).flatMap fun _ =>
      (db.items.filter (fun i => i.id == j.itemID)).map fun _ => j

/-- The error handling of `selectUsingHasMany`: every scan error is
returned to the caller unchanged; on success the row count is printed. -/
def selectUsingHasManyHandle (res : Except DBError (List OrderToItemRow)) :
    Except DBError Nat :=
  match res with
  | .error e => .error e
  | .ok rows => .ok rows.length

/-- The whole `selectUsingHasMany` routine against the deterministic
in-memory database, whose scans always succeed. -/
def selectUsingHasMany (db : DB) : Except DBError Nat :=
  selectUsingHasManyHandle (.ok (selectUsingHasManyRows db))

/-- `ORDER BY id ASC LIMIT 1` over the orders table: the row with the
least id, or `none` when the table is empty. -/
def minIdOrderRow (rows : List OrderRow) : Option OrderRow :=
  rows.foldl
    (fun acc r =>
      match acc with
      | none => some r
      | some b => if r.id < b.id then some r else some b) none

/-- `ORDER BY id ASC LIMIT 1` over the items table. -/
def minIdItemRow (rows : List ItemRow) : Option ItemRow :=
  rows.foldl
    (fun acc r =>
      match acc with
      | none => some r
      | some b => if r.id < b.id then some r else some b) none

/-- Hydration of the `ItemsM2M.Item` belongs-to relation: look the item id
up in the items table; nested relations of the result are not hydrated. -/
def lookupItemM2M (db : DB) (iid : Int) : Option ItemM2M :=
  (db.items.find? (fun i => i.id == iid)).map fun i => ItemM2M.mk i.id i.orderID [] []

/-- Hydration of the `OrdersM2M.Order` belongs-to relation. -/
def lookupOrderM2M (db : DB) (oid : Int) : Option OrderM2M :=
  (db.orders.find? (fun o => o.id == oid)).map fun o => OrderM2M.mk o.id o.itemID [] []

/-- The scan of the first `selectUsingM2M` query: the order with least id
(`ORDER BY orders.id ASC LIMIT 1`), its `ItemsM2M` has-many rows
(junction rows with `order_id = id`, in table order) with each row's
`Item` hydrated, or `sql.ErrNoRows` when the orders table is empty. -/
def scanOrderM2M (db : DB) : Except DBError OrderM2M :=
  match minIdOrderRow db.orders with
  | none => .error .noRows
  | some o =>
    .ok (OrderM2M.mk o.id o.itemID
      ((db.orderToItems.filter (fun j => j.orderID == o.id)).map fun j =>
        OrderToItemM2M.mk j.orderID none j.itemID (lookupItemM2M db j.itemID)) [])

/-- The scan of the third `selectUsingM2M` query: the item with least id,
its `OrdersM2M` junction rows with each row's `Order` hydrated, or
`sql.ErrNoRows` when the items table is empty. -/
def scanItemM2M (db : DB) : Except DBError ItemM2M :=
  match minIdItemRow db.items with
  | none => .error .noRows
  | some i =>
    .ok (ItemM2M.mk i.id i.orderID
      ((db.orderToItems.filter (fun j => j.itemID == i.id)).map fun j =>
        OrderToItemM2M.mk j.orderID (lookupOrderM2M db j.orderID) j.itemID none) [])

/-- The error handling shared by the three `selectUsingM2M` queries:
`err != nil && !errors.Is(err, sql.ErrNoRows)` propagates the error, and a
`sql.ErrNoRows` outcome leaves the freshly allocated zero-valued model. -/
def noRowsHandle {α : Type} (zero : α) (res : Except DBError α) : Except DBError α :=
  match res with
  | .error e => if e = .noRows then .ok zero else .error e
  | .ok a => .ok a

/-- The error handling of the order-scanning `selectUsingM2M` queries. -/
def selectM2MOrderHandle (res : Except DBError OrderM2M) : Except DBError OrderM2M :=
  noRowsHandle zeroOrderM2M res

/-- The error handling of the item-scanning `selectUsingM2M` query. -/
def selectM2MItemHandle (res : Except DBError ItemM2M) : Except DBError ItemM2M :=
  noRowsHandle zeroItemM2M res

/-- The first `selectUsingM2M` query followed by `order.PostQuery()`. -/
def selectUsingM2MOrder (db : DB) : Except DBError OrderM2M :=
  match selectM2MOrderHandle (scanOrderM2M db) with
  | .error e => .error e
  | .ok o => .ok o.PostQuery

/-- The third `selectUsingM2M` query followed by `item.PostQuery()`. -/
def selectUsingM2MItem (db : DB) : Except DBError ItemM2M :=
  match selectM2MItemHandle (scanItemM2M db) with
  | .error e => .error e
  | .ok i => .ok i.PostQuery

/-!
Program structure.  `main` creates the schema, then launches three
goroutines under one wait group (`wg.Add(3)` ... `wg.Wait()`): a writer
running `InsertQuery` once and two readers running ten iterations of
`selectUsingHasMany` and `selectUsingM2M` respectively. -/

/-- Which select routine a reader goroutine loops over. -/
inductive SelectRoutine where
  | hasMany
  | m2m
deriving DecidableEq, Repr

/-- A goroutine launched by `main`: the writer with its insert sequence,
or a reader with its routine and its `for range` iteration count. -/
inductive TaskSpec where
  | writer (inserts : List InsertValue)
  | reader (routine : SelectRoutine) (iterations : Nat)
deriving DecidableEq, Repr

/-- The goroutines `main` launches and jointly awaits, in launch order
(identical in both variants). -/
def mainTasks : List TaskSpec :=
  [ .writer insertValues
  , .reader .hasMany 10
  , .reader .m2m 10 ]

/-- Whether a task is the writer. -/
def TaskSpec.isWriter : TaskSpec → Bool
  | .writer _ => true
  | .reader _ _ => false

/-- The select statements one `selectUsingM2M` call issues, in order:
order by id ascending, order with no explicit ordering, item by id
ascending. -/
inductive M2MQuery where
  | orderAsc
  | orderPlain
  | itemAsc
deriving DecidableEq, Repr

/-- A database operation the program can issue. -/
inductive DBOp where
  | createTable (m : SchemaModel)
  | insertRow (v : InsertValue)
  | selectJoin
  | selectM2M (q : M2MQuery)
deriving DecidableEq, Repr

/-- The state transition of one database operation: DDL creates a table
(no rows touched), an insert appends a row or fails on a key conflict,
and a select reads without modifying any row. -/
def DBOp.apply : DBOp → DB → Except DBError DB
  | .createTable _, db => .ok db
  | .insertRow v, db => insertExec v db
  | .selectJoin, db => .ok db
  | .selectM2M _, db => .ok db

/-- Every database operation the program issues over its whole run:
the three schema creations, the writer's five inserts, the flat-join
reader's ten selects, and the m2m reader's ten iterations of three
selects each. -/
def programOps : List DBOp :=
  createSchemaModels.map DBOp.createTable
    ++ insertValues.map DBOp.insertRow
    ++ List.replicate 10 DBOp.selectJoin
    ++ (List.replicate 10
        [DBOp.selectM2M .orderAsc, DBOp.selectM2M .orderPlain, DBOp.selectM2M .itemAsc]).flatten

/-- Shape check of one task of `main`: the writer carries five inserts,
each reader runs ten iterations. -/
def TaskSpec.shapeOk : TaskSpec → Bool
  | .writer vs => vs.length == 5
  | .reader _ k => k == 10

/-- Every operation of the sequence succeeds when executed in order from
the given state (the condition under which the source loops reach the
final `return nil`). -/
def allOk {α σ ε : Type} (exec : α → σ → Except ε σ) : List α → σ → Prop
  | [], _ => True
  | a :: rest, s =>
    match exec a s with
    | .error _ => False
    | .ok s' => allOk exec rest s'

/-- An item value used to exhibit a junction slice with a repeated
endpoint. -/
def dupItem : ItemM2M := .mk 7 0 [] []

/-- A hydrated junction row pointing at `dupItem`. -/
def dupJunction : OrderToItemM2M := .mk 1 none 7 (some dupItem)

/-- An `OrderM2M` whose `ItemsM2M` slice mentions the same related item
twice. -/
def dupOrderM2M : OrderM2M := .mk 1 0 [dupJunction, dupJunction] []

/-- An order value used to exhibit the symmetric situation. -/
def dupOrder : OrderM2M := .mk 9 0 [] []

/-- A hydrated junction row pointing at `dupOrder`. -/
def dupJunctionOrder : OrderToItemM2M := .mk 9 (some dupOrder) 1 none

/-- An `ItemM2M` whose `OrdersM2M` slice mentions the same related order
twice. -/
def dupItemM2M : ItemM2M := .mk 1 0 [dupJunctionOrder, dupJunctionOrder] []

/-!
Helper lemmas. -/

/-- Folding the append-if-non-nil loop body over a list amounts to
appending the `filterMap` of the pointer projection. -/
theorem foldl_appendIfSome {α β : Type} (f : α → Option β) :
    ∀ (l : List α) (acc : List β),
      l.foldl (appendIfSome f) acc = acc ++ l.filterMap f := by
  intro l
  induction l with
  | nil => intro acc; simp
  | cons a l ih =>
    intro acc
    rw [List.foldl_cons]
    cases h : f a with
    | none => simp [appendIfSome, h, ih, List.filterMap_cons]
    | some b => simp [appendIfSome, h, ih, List.filterMap_cons]

/-- `OrderM2M.PostQuery` sets `Items` to the in-order projection of the
non-nil `Item` pointers of `ItemsM2M`. -/
theorem OrderM2M.PostQuery_items (o : OrderM2M) :
    o.PostQuery.items = o.itemsM2M.filterMap OrderToItemM2M.item := by
  cases o with
  | mk i t l x =>
    cases l with
    | nil => rfl
    | cons a l =>
      simp only [OrderM2M.PostQuery, OrderM2M.items, OrderM2M.itemsM2M]
      rw [if_pos (by simp), foldl_appendIfSome]
      simp

/-- `ItemM2M.PostQuery` sets `Orders` to the in-order projection of the
non-nil `Order` pointers of `OrdersM2M`. -/
theorem ItemM2M.PostQuery_orders (i : ItemM2M) :
    i.PostQuery.orders = i.ordersM2M.filterMap OrderToItemM2M.order := by
  cases i with
  | mk j t l x =>
    cases l with
    | nil => rfl
    | cons a l =>
      simp only [ItemM2M.PostQuery, ItemM2M.orders, ItemM2M.ordersM2M]
      rw [if_pos (by simp), foldl_appendIfSome]
      simp

/-- The sequential loop succeeds exactly when every operation of the list
succeeds in order. -/
theorem runSeqTrace_ok_iff {α σ ε : Type} (exec : α → σ → Except ε σ) :
    ∀ (l : List α) (s : σ),
      (∃ s', (runSeqTrace exec l s).2 = Except.ok s') ↔ allOk exec l s := by
  intro l
  induction l with
  | nil => intro s; simp [runSeqTrace, allOk]
  | cons a l ih =>
    intro s
    cases h : exec a s with
    | error e => simp [runSeqTrace, allOk, h]
    | ok s' => simp [runSeqTrace, allOk, h, ih s']

/-- When the sequential loop succeeds, every operation of the list was
attempted, in order. -/
theorem runSeqTrace_ok_trace {α σ ε : Type} (exec : α → σ → Except ε σ) :
    ∀ (l : List α) (s s' : σ),
      (runSeqTrace exec l s).2 = Except.ok s' → (runSeqTrace exec l s).1 = l := by
  intro l
  induction l with
  | nil => intro s s' _; rfl
  | cons a l ih =>
    intro s s' h
    cases he : exec a s with
    | error e => simp [runSeqTrace, he] at h
    | ok s₁ =>
      simp only [runSeqTrace, he] at h ⊢
      exact congrArg (a :: ·) (ih s₁ s' h)

/-- When the sequential loop fails, the list splits as
`pre ++ failing :: post`: every operation of `pre` succeeded in order, the
failing operation returned the reported error, the attempted operations
are exactly `pre ++ [failing]`, and nothing in `post` was attempted. -/
theorem runSeqTrace_error_decomp {α σ ε : Type} (exec : α → σ → Except ε σ) :
    ∀ (l : List α) (s : σ) (e : ε),
      (runSeqTrace exec l s).2 = Except.error e →
        ∃ pre a post s₁,
          l = pre ++ a :: post
          ∧ (runSeqTrace exec l s).1 = pre ++ [a]
          ∧ runSeqTrace exec pre s = (pre, Except.ok s₁)
          ∧ exec a s₁ = Except.error e := by
  intro l
  induction l with
  | nil => intro s e h; simp [runSeqTrace] at h
  | cons a l ih =>
    intro s e h
    cases he : exec a s with
    | error e' =>
      have hee : e' = e := by
        simpa [runSeqTrace, he] using h
      subst hee
      exact ⟨[], a, l, s, rfl, by simp [runSeqTrace, he], by simp [runSeqTrace], he⟩
    | ok s₁ =>
      have h' : (runSeqTrace exec l s₁).2 = Except.error e := by
        simpa [runSeqTrace, he] using h
      obtain ⟨pre, b, post, s₂, hl, htr, hpre, hb⟩ := ih s₁ e h'
      refine ⟨a :: pre, b, post, s₂, by rw [hl]; rfl, ?_, ?_, hb⟩
      · simp [runSeqTrace, he, htr]
      · simp [runSeqTrace, he, hpre]

/-- Membership in each table is preserved by any successful insert. -/
theorem insertExec_preserves (v : InsertValue) (db db' : DB)
    (h : insertExec v db = Except.ok db') :
    (∀ r ∈ db.orders, r ∈ db'.orders)
    ∧ (∀ r ∈ db.items, r ∈ db'.items)
    ∧ (∀ r ∈ db.orderToItems, r ∈ db'.orderToItems) := by
  cases v with
  | item r =>
    simp only [insertExec, DB.insertItem] at h
    split at h
    · simp at h
    · injection h with h
      subst h
      exact ⟨fun r hr => hr, fun r hr => List.mem_append_left _ hr, fun r hr => hr⟩
  | order r =>
    simp only [insertExec, DB.insertOrder] at h
    split at h
    · simp at h
    · injection h with h
      subst h
      exact ⟨fun r hr => List.mem_append_left _ hr, fun r hr => hr, fun r hr => hr⟩
  | orderToItem r =>
    simp only [insertExec, DB.insertOrderToItem] at h
    split at h
    · simp at h
    · injection h with h
      subst h
      exact ⟨fun r hr => hr, fun r hr => hr, fun r hr => List.mem_append_left _ hr⟩

/-- The shared `selectUsingM2M` error handling propagates an error exactly
when the scan failed with something other than `sql.ErrNoRows`. -/
theorem noRowsHandle_error_iff {α : Type} (zero : α) (res : Except DBError α) (e : DBError) :
    noRowsHandle zero res = Except.error e ↔ res = Except.error e ∧ e ≠ DBError.noRows := by
  cases res with
  | ok a =>
    constructor
    · intro h; exact Except.noConfusion h
    · rintro ⟨h1, _⟩; exact Except.noConfusion h1
  | error e' =>
    by_cases hn : e' = DBError.noRows
    · subst hn
      constructor
      · intro h
        rw [show noRowsHandle zero (Except.error DBError.noRows) = Except.ok zero from by
            simp [noRowsHandle]] at h
        exact Except.noConfusion h
      · rintro ⟨h1, h2⟩
        exact absurd (Except.error.inj h1).symm h2
    · rw [show noRowsHandle zero (Except.error e') = Except.error e' from by
        simp [noRowsHandle, hn]]
      constructor
      · intro h
        exact ⟨h, fun he => hn ((Except.error.inj h).trans he)⟩
      · exact fun hp => hp.1


/-!
Claim theorems. -/

/-- Claim C1, counterexample: the claim asserts that in every select
routine an error is propagated if and only if it is not `sql.ErrNoRows`,
naming `selectUsingHasMany` in particular.  But the error handling of
`selectUsingHasMany` (`if err := ...Scan(ctx); err != nil { return err }`)
has no `sql.ErrNoRows` exemption: fed a `sql.ErrNoRows` outcome it
propagates it to the caller, which panics, instead of converting it to an
empty result. -/
theorem selectUsingHasMany_noRows_counterexample :
    selectUsingHasManyHandle (Except.error DBError.noRows)
      = Except.error DBError.noRows := rfl

/-- Claim C1, amended: the three relation-hydrating selects of
`selectUsingM2M` propagate an error exactly when it is not
`sql.ErrNoRows` (a `sql.ErrNoRows` outcome is converted to the zero-valued
model and the routine continues); the join-based flat select
`selectUsingHasMany` propagates every scan error unchanged, with no
`sql.ErrNoRows` exemption, but a no-rows database state is not an error
for it in the first place: its slice scan succeeds with an empty result,
as on the empty database. -/
theorem selectHandlers_noRows_tolerance :
    (∀ (res : Except DBError OrderM2M) (e : DBError),
        selectM2MOrderHandle res = Except.error e
          ↔ res = Except.error e ∧ e ≠ DBError.noRows)
    ∧ (∀ (res : Except DBError ItemM2M) (e : DBError),
        selectM2MItemHandle res = Except.error e
          ↔ res = Except.error e ∧ e ≠ DBError.noRows)
    ∧ (∀ (res : Except DBError (List OrderToItemRow)) (e : DBError),
        selectUsingHasManyHandle res = Except.error e ↔ res = Except.error e)
    ∧ selectUsingHasMany emptyDB = Except.ok 0 := by
  refine ⟨fun res e => noRowsHandle_error_iff _ res e,
          fun res e => noRowsHandle_error_iff _ res e,
          fun res e => ?_, rfl⟩
  cases res with
  | ok rows =>
    constructor
    · intro h; exact Except.noConfusion h
    · intro h; exact Except.noConfusion h
  | error e' =>
    constructor
    · exact fun h => congrArg Except.error (Except.error.inj h)
    · exact fun h => congrArg Except.error (Except.error.inj h)

/-- Witness for the amended C1 theorem: a non-`ErrNoRows` error is
propagated by the m2m handler at a concrete input. -/
theorem selectHandlers_noRows_tolerance_witness :
    selectM2MOrderHandle (Except.error (DBError.other 5))
      = Except.error (DBError.other 5) :=
  (selectHandlers_noRows_tolerance.1 (Except.error (DBError.other 5))
    (DBError.other 5)).mpr ⟨rfl, by decide⟩

/-- Claim C2, counterexample: `PostQuery` does not de-duplicate.  On an
`OrderM2M` whose junction slice carries the same related item twice, the
flattened `Items` slice contains that item value twice; symmetrically for
`ItemM2M.PostQuery`. -/
theorem PostQuery_duplicate_counterexample :
    dupOrderM2M.PostQuery.items = [dupItem, dupItem]
    ∧ ¬ dupOrderM2M.PostQuery.items.Nodup
    ∧ dupItemM2M.PostQuery.orders = [dupOrder, dupOrder]
    ∧ ¬ dupItemM2M.PostQuery.orders.Nodup := by
  refine ⟨rfl, ?_, rfl, ?_⟩
  · intro h
    rw [show dupOrderM2M.PostQuery.items = [dupItem, dupItem] from rfl] at h
    exact (List.nodup_cons.mp h).1 (List.mem_cons_self dupItem [])
  · intro h
    rw [show dupItemM2M.PostQuery.orders = [dupOrder, dupOrder] from rfl] at h
    exact (List.nodup_cons.mp h).1 (List.mem_cons_self dupOrder [])

/-- Claim C2, amended: `OrderM2M.PostQuery` flattens without
de-duplicating: the resulting `Items` slice is exactly the in-order
projection of the pointed-to `Item` values of the junction entries whose
`Item` pointer is non-nil, one occurrence per junction entry (so an item
reachable through several junction entries appears several times);
symmetrically for `ItemM2M.PostQuery` over `OrdersM2M`. -/
theorem PostQuery_flat_projection (o : OrderM2M) (i : ItemM2M) :
    o.PostQuery.items = o.itemsM2M.filterMap OrderToItemM2M.item
    ∧ i.PostQuery.orders = i.ordersM2M.filterMap OrderToItemM2M.order :=
  ⟨OrderM2M.PostQuery_items o, ItemM2M.PostQuery_orders i⟩

/-- Witness for the amended C2 theorem at concrete inputs. -/
theorem PostQuery_flat_projection_witness :
    dupOrderM2M.PostQuery.items = dupOrderM2M.itemsM2M.filterMap OrderToItemM2M.item
    ∧ dupItemM2M.PostQuery.orders = dupItemM2M.ordersM2M.filterMap OrderToItemM2M.order :=
  PostQuery_flat_projection dupOrderM2M dupItemM2M

/-- Claim C3: `InsertQuery` attempts exactly the five inserts
`Item{ID:1}`, `Item{ID:2}`, `Order{ID:1}`, `OrderToItem{1,1}`,
`OrderToItem{1,2}` in that order; starting from the fresh database it
succeeds and leaves exactly 1 order row, 2 item rows and 2 junction rows;
and the writer's five inserts are the only insert operations in the whole
program run. -/
theorem InsertQuery_fixed_sequence_counts :
    (InsertQueryWith insertExec emptyDB).1
      = [ InsertValue.item ⟨1, 0⟩, InsertValue.item ⟨2, 0⟩, InsertValue.order ⟨1, 0⟩
        , InsertValue.orderToItem ⟨1, 1⟩, InsertValue.orderToItem ⟨1, 2⟩ ]
    ∧ InsertQuery emptyDB = Except.ok finalDB
    ∧ finalDB.orders.length = 1
    ∧ finalDB.items.length = 2
    ∧ finalDB.orderToItems.length = 2
    ∧ programOps.filterMap
        (fun op => match op with
          | DBOp.insertRow v => some v
          | _ => none) = insertValues :=
  ⟨rfl, rfl, rfl, rfl, rfl, rfl⟩

/-- Claim C4: once the insert sequence has completed, the hydrating select
for the first order returns order id 1 with `Items` holding exactly the
items with ids 1 and 2 — the ids paired with order_id 1 in the junction
table — and the hydrating select for the first item returns item id 1 with
`Orders` holding exactly the order with id 1, the id paired with item_id 1
in the junction table. -/
theorem selectUsingM2M_hydrates_after_inserts :
    (selectUsingM2MOrder finalDB).toOption.map (fun o => (o.id, o.items.map ItemM2M.id))
      = some (1, [1, 2])
    ∧ ((finalDB.orderToItems.filter (fun j => j.orderID == 1)).map OrderToItemRow.itemID
      = [1, 2])
    ∧ (selectUsingM2MItem finalDB).toOption.map (fun i => (i.id, i.orders.map OrderM2M.id))
      = some (1, [1])
    ∧ ((finalDB.orderToItems.filter (fun j => j.itemID == 1)).map OrderToItemRow.orderID
      = [1]) :=
  ⟨rfl, rfl, rfl, rfl⟩

/-- For five or more applied insert operations the database is the
completed final state (the insert sequence has length five). -/
theorem dbAfter_add_five (k : Nat) : dbAfter (k + 5) = finalDB := by
  have hlen : insertValues.length = 5 := rfl
  have htake : insertValues.take (k + 5) = insertValues :=
    List.take_of_length_le (by rw [hlen]; exact Nat.le_add_left 5 k)
  unfold dbAfter
  rw [htake]
  rfl

/-- Claim C5: in every reachable database state — any prefix of the insert
sequence applied to the fresh database, reads not changing state — the
join-based flat select returns at most 2 rows; once the insert sequence
has completed it returns exactly the 2 junction rows; and every returned
row is a junction row of the state whose order and item endpoints exist. -/
theorem selectUsingHasMany_row_bounds (n : Nat) :
    (selectUsingHasManyRows (dbAfter n)).length ≤ 2
    ∧ (5 ≤ n → selectUsingHasManyRows (dbAfter n) = [⟨1, 1⟩, ⟨1, 2⟩])
    ∧ (∀ r ∈ selectUsingHasManyRows (dbAfter n),
        r ∈ (dbAfter n).orderToItems
        ∧ (∃ o ∈ (dbAfter n).orders, o.id = r.orderID)
        ∧ (∃ i ∈ (dbAfter n).items, i.id = r.itemID)) := by
  match n with
  | 0 => exact ⟨by decide, fun h => absurd h (by decide), by decide⟩
  | 1 => exact ⟨by decide, fun h => absurd h (by decide), by decide⟩
  | 2 => exact ⟨by decide, fun h => absurd h (by decide), by decide⟩
  | 3 => exact ⟨by decide, fun h => absurd h (by decide), by decide⟩
  | 4 => exact ⟨by decide, fun h => absurd h (by decide), by decide⟩
  | (k + 5) =>
    rw [dbAfter_add_five k]
    exact ⟨by decide, fun _ => by decide, by decide⟩

/-- Witness for the C5 theorem at the completed state. -/
theorem selectUsingHasMany_row_bounds_witness :
    (selectUsingHasManyRows (dbAfter 5)).length ≤ 2
    ∧ selectUsingHasManyRows (dbAfter 5) = [⟨1, 1⟩, ⟨1, 2⟩] :=
  ⟨(selectUsingHasMany_row_bounds 5).1,
   (selectUsingHasMany_row_bounds 5).2.1 (by decide)⟩

/-- Claim C6: `main` launches exactly three goroutines under one jointly
awaited wait group: one writer carrying the five-element insert sequence
and two readers, one per select routine, each running exactly ten
iterations. -/
theorem mainTasks_structure :
    mainTasks.length = 3
    ∧ mainTasks.filter TaskSpec.isWriter = [TaskSpec.writer insertValues]
    ∧ mainTasks.filter (fun t => !t.isWriter)
        = [TaskSpec.reader SelectRoutine.hasMany 10, TaskSpec.reader SelectRoutine.m2m 10]
    ∧ insertValues.length = 5
    ∧ mainTasks.all TaskSpec.shapeOk = true :=
  ⟨rfl, rfl, rfl, rfl, rfl⟩

/-- Claim C7: no operation the program ever issues updates or deletes a
row.  Every operation in `programOps` — DDL, the five inserts, the reader
selects — preserves every row already present in every table: once a row
is in the database it stays there unchanged for the rest of the run. -/
theorem programOps_row_preservation
    (op : DBOp) (hop : op ∈ programOps) (db db' : DB)
    (h : DBOp.apply op db = Except.ok db') :
    (∀ r ∈ db.orders, r ∈ db'.orders)
    ∧ (∀ r ∈ db.items, r ∈ db'.items)
    ∧ (∀ r ∈ db.orderToItems, r ∈ db'.orderToItems) := by
  cases op with
  | createTable m =>
    simp only [DBOp.apply, Except.ok.injEq] at h
    subst h
    exact ⟨fun r hr => hr, fun r hr => hr, fun r hr => hr⟩
  | insertRow v => exact insertExec_preserves v db db' h
  | selectJoin =>
    simp only [DBOp.apply, Except.ok.injEq] at h
    subst h
    exact ⟨fun r hr => hr, fun r hr => hr, fun r hr => hr⟩
  | selectM2M q =>
    simp only [DBOp.apply, Except.ok.injEq] at h
    subst h
    exact ⟨fun r hr => hr, fun r hr => hr, fun r hr => hr⟩

/-- Witness for the C7 theorem at a concrete program operation. -/
theorem programOps_row_preservation_witness :
    (∀ r ∈ finalDB.orders, r ∈ finalDB.orders)
    ∧ (∀ r ∈ finalDB.items, r ∈ finalDB.items)
    ∧ (∀ r ∈ finalDB.orderToItems, r ∈ finalDB.orderToItems) :=
  programOps_row_preservation DBOp.selectJoin (by decide) finalDB finalDB rfl

/-- Claim C9: `PostQuery` mutates only the flattened slice: id, foreign-id
column and the raw junction slice are unchanged; the flattened slice is
exactly the in-order projection of the non-nil far pointers of the
junction slice (empty when there are none); and `PostQuery` is idempotent.
Symmetrically for both model types. -/
theorem PostQuery_frame_and_idempotent (o : OrderM2M) (i : ItemM2M) :
    o.PostQuery.id = o.id
    ∧ o.PostQuery.itemID = o.itemID
    ∧ o.PostQuery.itemsM2M = o.itemsM2M
    ∧ o.PostQuery.items = o.itemsM2M.filterMap OrderToItemM2M.item
    ∧ o.PostQuery.PostQuery = o.PostQuery
    ∧ i.PostQuery.id = i.id
    ∧ i.PostQuery.orderID = i.orderID
    ∧ i.PostQuery.ordersM2M = i.ordersM2M
    ∧ i.PostQuery.orders = i.ordersM2M.filterMap OrderToItemM2M.order
    ∧ i.PostQuery.PostQuery = i.PostQuery := by
  cases o with
  | mk a b l x =>
    cases i with
    | mk c d m y =>
      exact ⟨rfl, rfl, rfl, OrderM2M.PostQuery_items _, rfl,
             rfl, rfl, rfl, ItemM2M.PostQuery_orders _, rfl⟩

/-- Witness for the C9 theorem at concrete values. -/
theorem PostQuery_frame_and_idempotent_witness :
    zeroOrderM2M.PostQuery.id = zeroOrderM2M.id
    ∧ zeroOrderM2M.PostQuery.itemID = zeroOrderM2M.itemID
    ∧ zeroOrderM2M.PostQuery.itemsM2M = zeroOrderM2M.itemsM2M
    ∧ zeroOrderM2M.PostQuery.items = zeroOrderM2M.itemsM2M.filterMap OrderToItemM2M.item
    ∧ zeroOrderM2M.PostQuery.PostQuery = zeroOrderM2M.PostQuery
    ∧ zeroItemM2M.PostQuery.id = zeroItemM2M.id
    ∧ zeroItemM2M.PostQuery.orderID = zeroItemM2M.orderID
    ∧ zeroItemM2M.PostQuery.ordersM2M = zeroItemM2M.ordersM2M
    ∧ zeroItemM2M.PostQuery.orders = zeroItemM2M.ordersM2M.filterMap OrderToItemM2M.order
    ∧ zeroItemM2M.PostQuery.PostQuery = zeroItemM2M.PostQuery :=
  PostQuery_frame_and_idempotent zeroOrderM2M zeroItemM2M

/-- Claim C10: `createSchema` and `InsertQuery` run their fixed list of
operations strictly in order and stop at the first failure: on success the
attempted operations are exactly the whole list and success happens
exactly when every operation succeeds in order; on failure the list splits
as `pre ++ failing :: post` with every operation of `pre` succeeded, the
failing operation returning the reported error, the attempted operations
exactly `pre ++ [failing]`, and nothing of `post` attempted. -/
theorem createSchema_InsertQuery_first_failure {σ ε : Type}
    (execC : SchemaModel → σ → Except ε σ)
    (execI : InsertValue → σ → Except ε σ) (s : σ) :
    ((∃ s', (createSchema execC s).2 = Except.ok s') ↔ allOk execC createSchemaModels s)
    ∧ (∀ s', (createSchema execC s).2 = Except.ok s' →
        (createSchema execC s).1 = createSchemaModels)
    ∧ (∀ e, (createSchema execC s).2 = Except.error e →
        ∃ pre a post s₁,
          createSchemaModels = pre ++ a :: post
          ∧ (createSchema execC s).1 = pre ++ [a]
          ∧ runSeqTrace execC pre s = (pre, Except.ok s₁)
          ∧ execC a s₁ = Except.error e)
    ∧ ((∃ s', (InsertQueryWith execI s).2 = Except.ok s') ↔ allOk execI insertValues s)
    ∧ (∀ s', (InsertQueryWith execI s).2 = Except.ok s' →
        (InsertQueryWith execI s).1 = insertValues)
    ∧ (∀ e, (InsertQueryWith execI s).2 = Except.error e →
        ∃ pre a post s₁,
          insertValues = pre ++ a :: post
          ∧ (InsertQueryWith execI s).1 = pre ++ [a]
          ∧ runSeqTrace execI pre s = (pre, Except.ok s₁)
          ∧ execI a s₁ = Except.error e) :=
  ⟨runSeqTrace_ok_iff execC createSchemaModels s,
   fun s' => runSeqTrace_ok_trace execC createSchemaModels s s',
   fun e => runSeqTrace_error_decomp execC createSchemaModels s e,
   runSeqTrace_ok_iff execI insertValues s,
   fun s' => runSeqTrace_ok_trace execI insertValues s s',
   fun e => runSeqTrace_error_decomp execI insertValues s e⟩

/-- Witness for the C10 theorem: with the deterministic executors from the
fresh database, both loops attempt their whole list and succeed. -/
theorem createSchema_InsertQuery_first_failure_witness :
    (InsertQueryWith insertExec emptyDB).1 = insertValues
    ∧ (createSchema (fun _ (db : DB) => (Except.ok db : Except DBError DB)) emptyDB).1
        = createSchemaModels :=
  ⟨(createSchema_InsertQuery_first_failure
      (fun _ (db : DB) => (Except.ok db : Except DBError DB)) insertExec emptyDB).2.2.2.2.1
      finalDB rfl,
   (createSchema_InsertQuery_first_failure
      (fun _ (db : DB) => (Except.ok db : Except DBError DB)) insertExec emptyDB).2.1
      emptyDB rfl⟩
